import Mathlib

/-!
Verification of the model-fitting engine of `src/fit.cpp` (Pidentify).

The first part embeds the Model Library: the five two-parameter shape
functions, their residual evaluators and their hand-written gradient
evaluators, transcribed expression-for-expression from the C++ source
(machine doubles are modelled as real numbers).  The spec's closed forms
are stated as separate `*_spec` definitions for comparison.

The second part embeds the ECDF builder, the fitter orchestration
(`curveFitting`) and the class scheduler (`fitClasses`) as pure functions
over rationals, with the opaque ALGLIB least-squares solver abstracted as
a function argument and solver exceptions modelled by `Except`.
-/

namespace Pidentify

/-! ### Model Library, as written in the source (`src/fit.cpp` lines 15-105) -/

/-- helper function secant: `sech(x) = 1.0 / std::cosh(x)` (fit.cpp line 15). -/
noncomputable def sech (x : ℝ) : ℝ := 1 / Real.cosh x

/-- Function `logistic` (fit.cpp line 20). -/
noncomputable def logistic (k alpha x : ℝ) : ℝ :=
  1 / (1 + Real.exp (-k * (x - alpha)))

/-- Function `hyperbolic_tangent` (fit.cpp line 35), written with `exp` exactly as in the source. -/
noncomputable def hyperbolic_tangent (k alpha x : ℝ) : ℝ :=
  ((Real.exp (k * (x - alpha)) - Real.exp (-k * (x - alpha))) /
      (Real.exp (k * (x - alpha)) + Real.exp (-k * (x - alpha))) + 1) / 2

/-- Function `arctangent` (fit.cpp line 53). -/
noncomputable def arctangent (k alpha x : ℝ) : ℝ :=
  (Real.arctan (k * (x - alpha)) + 1) / 2

/-- Function `gudermannian` (fit.cpp line 71). -/
noncomputable def gudermannian (k alpha x : ℝ) : ℝ :=
  ((2 * Real.arctan (Real.tanh (k * (x - alpha) / 2))) + 1) / 2

/-- Function `algebraic` (fit.cpp line 89), with the local `term = k*(x-alpha)`. -/
noncomputable def algebraic (k alpha x : ℝ) : ℝ :=
  ((k * (x - alpha)) / Real.sqrt (1 + (k * (x - alpha)) * (k * (x - alpha))) + 1) / 2

/-! Residual evaluators `*_f` (fit.cpp lines 24, 40, 58, 76, 95): each sets
`func = 1 - shape(c[0], c[1], x[0])`. -/

/-- Evaluator `logistic_f` (fit.cpp line 24). -/
noncomputable def logistic_f (c0 c1 x : ℝ) : ℝ := 1 - logistic c0 c1 x

/-- Evaluator `hyperbolic_f` (fit.cpp line 40). -/
noncomputable def hyperbolic_f (c0 c1 x : ℝ) : ℝ := 1 - hyperbolic_tangent c0 c1 x

/-- Evaluator `arctangent_f` (fit.cpp line 58). -/
noncomputable def arctangent_f (c0 c1 x : ℝ) : ℝ := 1 - arctangent c0 c1 x

/-- Evaluator `gudermannian_f` (fit.cpp line 76). -/
noncomputable def gudermannian_f (c0 c1 x : ℝ) : ℝ := 1 - gudermannian c0 c1 x

/-- Evaluator `algebraic_f` (fit.cpp line 95). -/
noncomputable def algebraic_f (c0 c1 x : ℝ) : ℝ := 1 - algebraic c0 c1 x

/-! Gradient evaluators `*_fd` (fit.cpp lines 28-32, 45-50, 63-68, 81-86, 100-105),
transcribed with C++ operator precedence (`a / b * c` is `(a / b) * c`, and the
literal `1/2` in `gudermannian_fd` is C++ integer division). -/

/-- Entry `grad[0]` of `logistic_fd` (fit.cpp line 30). -/
noncomputable def logistic_fd_grad0 (c0 c1 x : ℝ) : ℝ :=
  -(((x - c1) * Real.exp (c0 * (c1 - x))) / (Real.exp (c0 * (c1 - x)) + 1) *
      (Real.exp (c0 * (c1 - x)) + 1))

/-- Entry `grad[1]` of `logistic_fd` (fit.cpp line 31). -/
noncomputable def logistic_fd_grad1 (c0 c1 x : ℝ) : ℝ :=
  c0 * Real.exp (c0 * (c1 - x)) / (Real.exp (c0 * (c1 - x)) + 1) *
    (Real.exp (c0 * (c1 - x)))

/-- Entry `grad[0]` of `hyperbolic_fd` (fit.cpp line 48). -/
noncomputable def hyperbolic_fd_grad0 (c0 c1 x : ℝ) : ℝ :=
  -(2 * (x - c1) * Real.exp (2 * c0 * (x - c1))) /
    ((Real.exp (2 * c0 * (x - c1)) + 1) * (Real.exp (2 * c0 * (x - c1)) + 1))

/-- Entry `grad[1]` of `hyperbolic_fd` (fit.cpp line 49). -/
noncomputable def hyperbolic_fd_grad1 (c0 c1 x : ℝ) : ℝ :=
  (2 * c0 * Real.exp (2 * c0 * (x - c1))) /
    ((Real.exp (2 * c0 * (x - c1)) + 1) * (Real.exp (2 * c0 * (x - c1)) + 1))

/-- Entry `grad[0]` of `arctangent_fd` (fit.cpp line 66). -/
noncomputable def arctangent_fd_grad0 (c0 c1 x : ℝ) : ℝ :=
  -((x - c1) / (2 * (c0 * c0 * (x - c1) * (x - c1) + 1)))

/-- Entry `grad[1]` of `arctangent_fd` (fit.cpp line 67). -/
noncomputable def arctangent_fd_grad1 (c0 c1 x : ℝ) : ℝ :=
  -(c0 / (2 * (c0 * c0 * (x - c1) * (x - c1) + 1)))

/-- The C++ expression `1/2` appearing in `gudermannian_fd` (fit.cpp lines 84-85):
integer division of the int literals 1 and 2, converted to double. -/
noncomputable def cppIntHalf : ℝ := ((1 / 2 : ℤ) : ℝ)

/-- Entry `grad[0]` of `gudermannian_fd` (fit.cpp line 84). -/
noncomputable def gudermannian_fd_grad0 (c0 c1 x : ℝ) : ℝ :=
  -((x - c1) * sech (cppIntHalf * c0 * (x - c1)) * sech (cppIntHalf * c0 * (x - c1))) /
    (2 * ((Real.tanh (cppIntHalf * c0 * (x - c1)) * Real.tanh (cppIntHalf * c0 * (x - c1)) + 1)))

/-- Entry `grad[1]` of `gudermannian_fd` (fit.cpp line 85). -/
noncomputable def gudermannian_fd_grad1 (c0 c1 x : ℝ) : ℝ :=
  c0 * sech (cppIntHalf * c0 * (x - c1)) * sech (cppIntHalf * c0 * (x - c1)) /
    (2 * (Real.tanh (cppIntHalf * c0 * (x - c1)) * Real.tanh (cppIntHalf * c0 * (x - c1)) + 1))

/-- Entry `grad[0]` of `algebraic_fd` (fit.cpp line 103). -/
noncomputable def algebraic_fd_grad0 (c0 c1 x : ℝ) : ℝ :=
  -((x - c1) / (2 * Real.sqrt ((c0 * c0 * (x - c1) * (x - c1) + 1) *
      (c0 * c0 * (x - c1) * (x - c1) + 1) * (c0 * c0 * (x - c1) * (x - c1) + 1))))

/-- Entry `grad[1]` of `algebraic_fd` (fit.cpp line 104). -/
noncomputable def algebraic_fd_grad1 (c0 c1 x : ℝ) : ℝ :=
  -(c0 / (2 * Real.sqrt ((c0 * c0 * (x - c1) * (x - c1) + 1) *
      (c0 * c0 * (x - c1) * (x - c1) + 1) * (c0 * c0 * (x - c1) * (x - c1) + 1))))

/-! ### The spec's closed forms (spec §4.1), written from the spec's words -/

/-- Modelled from the spec: `logistic: shape = 1/(1+exp(−k(x−alpha)))`. -/
noncomputable def logistic_spec (k alpha x : ℝ) : ℝ :=
  1 / (1 + Real.exp (-(k * (x - alpha))))

/-- Modelled from the spec: `hyperbolic-tangent: shape = (tanh(k(x−alpha))+1)/2`. -/
noncomputable def hyperbolic_tangent_spec (k alpha x : ℝ) : ℝ :=
  (Real.tanh (k * (x - alpha)) + 1) / 2

/-- Modelled from the spec: `arctangent: shape = (atan(k(x−alpha))+1)/2`. -/
noncomputable def arctangent_spec (k alpha x : ℝ) : ℝ :=
  (Real.arctan (k * (x - alpha)) + 1) / 2

/-- Modelled from the spec: `Gudermannian: shape = (2·atan(tanh(k(x−alpha)/2))+1)/2`. -/
noncomputable def gudermannian_spec (k alpha x : ℝ) : ℝ :=
  (2 * Real.arctan (Real.tanh (k * (x - alpha) / 2)) + 1) / 2

/-- Modelled from the spec:
`simple-algebraic: shape = (k(x−alpha)/sqrt(1+(k(x−alpha))²)+1)/2`. -/
noncomputable def algebraic_spec (k alpha x : ℝ) : ℝ :=
  (k * (x - alpha) / Real.sqrt (1 + (k * (x - alpha)) ^ 2) + 1) / 2

/-! ### Data model for the fitter and scheduler (`fit.cpp` lines 108-267)

Numeric data (doubles) is modelled by rationals so that every definition is
executable; the opaque ALGLIB least-squares solver (`lsfitcreatewfg` /
`lsfitsetcond` / `lsfitfit` / `lsfitresults`) is abstracted as a function
argument, and an ALGLIB exception escaping `lsfitfit` is modelled by
`Except.error` carrying the exception message. -/

/-- Structure `FitResult` (declared in fit.h, populated in `curveFitting`): coefficient
pair `c`, model name, and the solver-reported weighted-RMS error. -/
structure FitResult where
  c : ℚ × ℚ
  functionName : String
  wrmsError : ℚ
deriving DecidableEq, Repr

/-- The five model families, in the fixed order `curveFitting` fits them. -/
inductive ModelId
  | logisticM
  | hyperbolicM
  | arctanM
  | gudermannianM
  | algebraicM
deriving DecidableEq, Repr

/-- One `lsfitcreatewfg`/`lsfitsetcond` configuration: the initial coefficient
guess handed to the solver, and the `epsx`/`maxits` termination settings. -/
structure FitCall where
  guess : ℚ × ℚ
  eps : ℚ
  maxits : ℤ
deriving DecidableEq, Repr

/-- The abstracted solver: given the x data, y data, weights, `epsx`, `maxits`,
the model being fitted and the initial coefficient guess, it either returns the
fitted coefficients with the weighted-RMS error, or raises (`Except.error`) an
ALGLIB exception message. -/
def SolverE : Type :=
  List ℚ → List ℚ → List ℚ → ℚ → ℤ → ModelId → ℚ × ℚ → Except String ((ℚ × ℚ) × ℚ)

/-- Initialisation of `real_1d_array c` to 0.367 and 0.45 (fit.cpp line 133):
the initial values for `c` and `a` in `c(x-a)`. -/
def initC : ℚ × ℚ := (367 / 1000, 45 / 100)

/-- Constant `double epsx = 0` (fit.cpp line 134). -/
def epsx : ℚ := 0

/-- Constant `ae_int_t maxits = 0` (fit.cpp line 135). -/
def maxits : ℤ := 0

/-- The weight loop of `curveFitting` (fit.cpp lines 129-131): for every
`i < y_values.size()` it reads `sorted_distances[i]`; each read is modelled by
`List.get?`, so an out-of-bounds read (undefined behaviour in C++) yields
`none` for the whole loop. -/
def weightsLoop (xs : List ℚ) : List ℕ → Option (List ℚ)
  | [] => some []
  | i :: is =>
    match xs.get? i with
    | some v => (weightsLoop xs is).map fun ws => v * v :: ws
    | none => none

/-- The weight array `w` built by `curveFitting` for `n = y_values.size()`
points, with every index read bounds-checked. -/
def weightsOpt (xs : List ℚ) (n : ℕ) : Option (List ℚ) :=
  weightsLoop xs (List.range n)

/-- The selection loop of `curveFitting` (fit.cpp lines 215-219): starting from
`bestFit = r0`, replace `bestFit` by `r` whenever `r.wrmsError < bestFit.wrmsError`. -/
def selectBestFrom (rs : List FitResult) (r0 : FitResult) : FitResult :=
  rs.foldl (fun best r => if r.wrmsError < best.wrmsError then r else best) r0

/-- The body of `curveFitting` (fit.cpp lines 108-228): build the weights, run
the five `lsfitcreatewfg`/`lsfitsetcond`/`lsfitfit`/`lsfitresults` blocks in
order — each block passes the current contents of `c`, which `lsfitresults` has
overwritten with the previous block's fitted coefficients — collect the five
`FitResult`s, and select the best one.  Returns the best fit, the five results
in order, and the trace of the five solver configurations; a solver exception
in any block aborts the whole computation with its message. -/
def curveFittingE (solver : SolverE) (xs ys : List ℚ) :
    Except String (FitResult × List FitResult × List FitCall) :=
  let ws := (weightsOpt xs ys.length).getD []
  match solver xs ys ws epsx maxits ModelId.logisticM initC with
  | Except.error m => Except.error m
  | Except.ok f1 =>
    match solver xs ys ws epsx maxits ModelId.hyperbolicM f1.1 with
    | Except.error m => Except.error m
    | Except.ok f2 =>
      match solver xs ys ws epsx maxits ModelId.arctanM f2.1 with
      | Except.error m => Except.error m
      | Except.ok f3 =>
        match solver xs ys ws epsx maxits ModelId.gudermannianM f3.1 with
        | Except.error m => Except.error m
        | Except.ok f4 =>
          match solver xs ys ws epsx maxits ModelId.algebraicM f4.1 with
          | Except.error m => Except.error m
          | Except.ok f5 =>
            let r1 : FitResult := ⟨f1.1, "Logistic function", f1.2⟩
            let rs : List FitResult :=
              [r1, ⟨f2.1, "hyperbolic tangent function", f2.2⟩,
               ⟨f3.1, "arctangent function", f3.2⟩,
               ⟨f4.1, "gudermannian function", f4.2⟩,
               ⟨f5.1, "simple algebraic function", f5.2⟩]
            let calls : List FitCall :=
              [⟨initC, epsx, maxits⟩, ⟨f1.1, epsx, maxits⟩, ⟨f2.1, epsx, maxits⟩,
               ⟨f3.1, epsx, maxits⟩, ⟨f4.1, epsx, maxits⟩]
            Except.ok (selectBestFrom rs r1, rs, calls)

/-! ### ECDF builder and class scheduler (`fitClasses`, fit.cpp lines 230-267) -/

/-- The in-place boundary insertion on a class's sorted distance vector
(fit.cpp lines 244 and 246): `insert(begin, 0)` then `insert(end, 1)`. -/
def buildX (d : List ℚ) : List ℚ := 0 :: d ++ [1]

/-- The y-value construction for a class with `l` original samples
(fit.cpp lines 238-247): a vector of length `l + 2` whose entry `i + 1` is
`1 - (i+1)/(l+1)` for `i < l`, with `y[0] = 1` and `y[l+1] = 0` written last. -/
def buildY (l : ℕ) : List ℚ :=
  List.ofFn fun i : Fin (l + 2) =>
    if (i : ℕ) = 0 then 1
    else if (i : ℕ) = l + 1 then 0
    else 1 - ((i : ℕ) : ℚ) / (l + 1)

/-- The map `fitClasses` leaves behind: every class's vector has been mutated
in place by the two boundary insertions of fit.cpp lines 244/246. -/
def fitClassesMap (classes : List (String × List ℚ)) : List (String × List ℚ) :=
  classes.map fun p => (p.1, buildX p.2)

/-- One class's fitting job, as launched by `fitClasses` (fit.cpp line 251):
the thread receives the already-augmented distance vector and the y vector and
runs `curveFitting` on them. -/
def runJob (solver : SolverE) (d : List ℚ) :
    Except String (FitResult × List FitResult × List FitCall) :=
  curveFittingE solver (buildX d) (buildY d.length)

/-- All launched jobs, one per class, keyed by class name; the `Except` value
is what the class's `std::future` will deliver (fit.cpp lines 249-251). -/
def runAll (solver : SolverE) (classes : List (String × List ℚ)) :
    List (String × Except String FitResult) :=
  classes.map fun p => (p.1, (runJob solver p.2).map fun t => t.1)

/-- `MODEL_STATE.bestFit[className] = bestFit` (fit.cpp line 226):
`std::unordered_map::operator[]` assigns over an existing entry for the key, or
appends a new entry. -/
def writeBest : List (String × FitResult) → String → FitResult → List (String × FitResult)
  | [], name, r => [(name, r)]
  | (k, v) :: t, name, r =>
    if k = name then (k, r) :: t else (k, v) :: writeBest t name r

/-- One scheduler-visible table update: a job that succeeded writes its best
fit under the mutex; a job that threw writes nothing. -/
def tableStep (t : List (String × FitResult)) (p : String × Except String FitResult) :
    List (String × FitResult) :=
  match p.2 with
  | Except.ok r => writeBest t p.1 r
  | Except.error _ => t

/-- The Best-Fit Table after the given job outcomes have performed their
writes, starting from the empty table. -/
def finalTable (outs : List (String × Except String FitResult)) :
    List (String × FitResult) :=
  outs.foldl tableStep []

/-- Name lookup in the Best-Fit Table (first entry with the given key). -/
def lookupTable : List (String × FitResult) → String → Option FitResult
  | [], _ => none
  | (k, v) :: t, name => if k = name then some v else lookupTable t name

/-- The join loop of `fitClasses` (fit.cpp lines 254-264): join each thread in
order and `get()` its future inside a `try`; the first future that rethrows an
ALGLIB exception makes the loop print the class name with the exception message
and `return 1` immediately, so the remaining threads are never joined.
Returns (classes joined, return code, reported class/message). -/
def joinAll : List (String × Except String FitResult) →
    List String × ℕ × Option (String × String)
  | [] => ([], 0, none)
  | (name, Except.ok _) :: rest =>
    let j := joinAll rest
    (name :: j.1, j.2.1, j.2.2)
  | (name, Except.error msg) :: _ => ([name], 1, some (name, msg))

/-- Everything observable about one `fitClasses` run: the Best-Fit Table, the
list of classes whose threads were joined, the return code, and the reported
failure (class name, exception message) if any. -/
structure RunOut where
  table : List (String × FitResult)
  joined : List String
  code : ℕ
  report : Option (String × String)
deriving DecidableEq, Repr

/-- `fitClasses` (fit.cpp lines 230-267) over the abstract solver: launch one
job per class (each job runs to completion and, on success, writes its best fit
into the shared table), then run the join loop. -/
def fitClassesRun (solver : SolverE) (classes : List (String × List ℚ)) : RunOut :=
  let outs := runAll solver classes
  let j := joinAll outs
  ⟨finalTable outs, j.1, j.2.1, j.2.2⟩

/-! ### Concrete solver instances used to exhibit behaviours -/

/-- A solver that always succeeds, returning coefficients `(1, 1)` with
weighted-RMS error 0. -/
def constSolver : SolverE := fun _ _ _ _ _ _ _ => Except.ok ((1, 1), 0)

/-- A solver that raises an ALGLIB exception whenever the x data is the
augmented vector `[0, 2, 1]` of a class whose single raw distance is 2, and
succeeds otherwise. -/
def failSolverA : SolverE := fun xs _ _ _ _ _ _ =>
  if xs = [0, 2, 1] then Except.error "ALGLIB: singular matrix"
  else Except.ok ((1, 1), 0)

/-! ### Model Library: shape functions versus the spec's closed forms -/

theorem tanh_eq_exp_ratio (v : ℝ) :
    Real.tanh v = (Real.exp v - Real.exp (-v)) / (Real.exp v + Real.exp (-v)) := by
  have hpos : 0 < Real.exp v + Real.exp (-v) := by positivity
  rw [Real.tanh_eq_sinh_div_cosh, Real.sinh_eq, Real.cosh_eq]
  field_simp

theorem logistic_eq_spec (k alpha x : ℝ) : logistic k alpha x = logistic_spec k alpha x := by
  rw [logistic, logistic_spec, neg_mul]

theorem hyperbolic_tangent_eq_spec (k alpha x : ℝ) :
    hyperbolic_tangent k alpha x = hyperbolic_tangent_spec k alpha x := by
  rw [hyperbolic_tangent, hyperbolic_tangent_spec, tanh_eq_exp_ratio, neg_mul]

theorem arctangent_eq_spec (k alpha x : ℝ) :
    arctangent k alpha x = arctangent_spec k alpha x := rfl

theorem gudermannian_eq_spec (k alpha x : ℝ) :
    gudermannian k alpha x = gudermannian_spec k alpha x := by
  rw [gudermannian, gudermannian_spec]

theorem algebraic_eq_spec (k alpha x : ℝ) : algebraic k alpha x = algebraic_spec k alpha x := by
  rw [algebraic, algebraic_spec, sq]

/-- C7: for all real k, alpha, x, each of the five shape functions in the code
equals the spec's closed form (logistic `1/(1+exp(−k(x−alpha)))`,
hyperbolic-tangent `(tanh(k(x−alpha))+1)/2`, arctangent `(atan(k(x−alpha))+1)/2`,
Gudermannian `(2·atan(tanh(k(x−alpha)/2))+1)/2`, simple-algebraic
`(k(x−alpha)/sqrt(1+(k(x−alpha))²)+1)/2`), and each family's residual evaluator
`*_f` returns `1 − shape(c[0], c[1], x)`. -/
theorem shapes_and_residuals_match_closed_forms (k alpha x : ℝ) :
    logistic k alpha x = logistic_spec k alpha x ∧
    hyperbolic_tangent k alpha x = hyperbolic_tangent_spec k alpha x ∧
    arctangent k alpha x = arctangent_spec k alpha x ∧
    gudermannian k alpha x = gudermannian_spec k alpha x ∧
    algebraic k alpha x = algebraic_spec k alpha x ∧
    logistic_f k alpha x = 1 - logistic_spec k alpha x ∧
    hyperbolic_f k alpha x = 1 - hyperbolic_tangent_spec k alpha x ∧
    arctangent_f k alpha x = 1 - arctangent_spec k alpha x ∧
    gudermannian_f k alpha x = 1 - gudermannian_spec k alpha x ∧
    algebraic_f k alpha x = 1 - algebraic_spec k alpha x := by
  refine ⟨logistic_eq_spec k alpha x, hyperbolic_tangent_eq_spec k alpha x,
    arctangent_eq_spec k alpha x, gudermannian_eq_spec k alpha x,
    algebraic_eq_spec k alpha x, ?_, ?_, ?_, ?_, ?_⟩
  · rw [logistic_f, logistic_eq_spec]
  · rw [hyperbolic_f, hyperbolic_tangent_eq_spec]
  · rw [arctangent_f, arctangent_eq_spec]
  · rw [gudermannian_f, gudermannian_eq_spec]
  · rw [algebraic_f, algebraic_eq_spec]

/-! ### C1: the gradient evaluators versus the true partial derivatives -/

theorem cppIntHalf_eq_zero : cppIntHalf = 0 := by
  norm_num [cppIntHalf]

/-- C1: the gradient evaluators are NOT the analytic partial derivatives of the
residuals.  At `c = (0, 0)`, `x = 1` the code's `logistic_fd` gradient in k
evaluates to −1 (the missing parentheses in `/ (e+1) * (e+1)` cancel the
denominator) while the true partial derivative `∂(1−logistic)/∂k` there is
−1/4; and for every input the Gudermannian gradient in k collapses to
`−(x−c1)/2` because the C++ literal `1/2` is integer division and zeroes the
`sech`/`tanh` arguments. -/
theorem gradients_deviate_from_true_derivatives :
    logistic_fd_grad0 0 0 1 = -1 ∧
    deriv (fun k : ℝ => logistic_f k 0 1) 0 = -(1 / 4) ∧
    logistic_fd_grad0 0 0 1 ≠ deriv (fun k : ℝ => logistic_f k 0 1) 0 ∧
    ∀ c0 c1 x : ℝ, gudermannian_fd_grad0 c0 c1 x = -(x - c1) / 2 := by
  have hval : logistic_fd_grad0 0 0 1 = -1 := by
    norm_num [logistic_fd_grad0, Real.exp_zero]
  have hfun : (fun k : ℝ => logistic_f k 0 1) =
      fun k : ℝ => 1 - (1 + Real.exp (-k * (1 - 0)))⁻¹ := by
    funext k
    simp [logistic_f, logistic, one_div]
  have h1 : HasDerivAt (fun k : ℝ => -k * (1 - 0)) (-1 * (1 - 0)) 0 :=
    (hasDerivAt_id (0 : ℝ)).neg.mul_const (1 - 0)
  have h2 : HasDerivAt (fun k : ℝ => Real.exp (-k * (1 - 0)))
      (Real.exp (-(0 : ℝ) * (1 - 0)) * (-1 * (1 - 0))) 0 := h1.exp
  have h3 : HasDerivAt (fun k : ℝ => 1 + Real.exp (-k * (1 - 0)))
      (Real.exp (-(0 : ℝ) * (1 - 0)) * (-1 * (1 - 0))) 0 := h2.const_add 1
  have hne : (1 + Real.exp (-(0 : ℝ) * (1 - 0))) ≠ 0 := by positivity
  have h4 : HasDerivAt (fun k : ℝ => (1 + Real.exp (-k * (1 - 0)))⁻¹)
      (-(Real.exp (-(0 : ℝ) * (1 - 0)) * (-1 * (1 - 0))) /
        (1 + Real.exp (-(0 : ℝ) * (1 - 0))) ^ 2) 0 := h3.inv hne
  have h5 : HasDerivAt (fun k : ℝ => 1 - (1 + Real.exp (-k * (1 - 0)))⁻¹)
      (-(-(Real.exp (-(0 : ℝ) * (1 - 0)) * (-1 * (1 - 0))) /
        (1 + Real.exp (-(0 : ℝ) * (1 - 0))) ^ 2)) 0 := h4.const_sub 1
  have hderiv : deriv (fun k : ℝ => logistic_f k 0 1) 0 = -(1 / 4) := by
    rw [hfun, h5.deriv]
    norm_num [Real.exp_zero]
  refine ⟨hval, hderiv, ?_, ?_⟩
  · rw [hval, hderiv]
    norm_num
  · intro c0 c1 x
    simp only [gudermannian_fd_grad0, cppIntHalf_eq_zero, zero_mul, Real.tanh_zero, sech,
      Real.cosh_zero]
    norm_num

/-! ### ECDF builder: supporting lemmas -/

theorem buildY_length (l : ℕ) : (buildY l).length = l + 2 := by
  simp [buildY]

theorem buildX_length (d : List ℚ) : (buildX d).length = d.length + 2 := by
  simp [buildX]

theorem buildY_get? (l i : ℕ) (hi : i < l + 2) :
    (buildY l).get? i = some (1 - (i : ℚ) / (l + 1)) := by
  rw [buildY, List.get?_ofFn]
  simp only [List.ofFnNthVal, hi, dif_pos]
  congr 1
  have hl1 : ((l : ℚ) + 1) ≠ 0 := by positivity
  split_ifs with h0 hl
  · simp [h0]
  · subst hl
    push_cast
    field_simp
  · rfl

theorem buildY_antitone (l : ℕ) : List.Chain' (fun a b => b ≤ a) (buildY l) := by
  rw [List.chain'_iff_get]
  intro i hi
  have hi2 : i + 1 < l + 2 := by
    have := buildY_length l
    omega
  have h1 : (buildY l).get? i = some (1 - (i : ℚ) / (l + 1)) := buildY_get? l i (by omega)
  have h2 : (buildY l).get? (i + 1) = some (1 - ((i + 1 : ℕ) : ℚ) / (l + 1)) :=
    buildY_get? l (i + 1) hi2
  rw [List.get?_eq_get (by omega : i < (buildY l).length)] at h1
  rw [List.get?_eq_get (by omega : i + 1 < (buildY l).length)] at h2
  rw [Option.some_inj.mp h1, Option.some_inj.mp h2]
  have hd : (0 : ℚ) < (l : ℚ) + 1 := by positivity
  have hc : ((i : ℚ)) ≤ ((i + 1 : ℕ) : ℚ) := by push_cast; linarith
  have := (div_le_div_iff_of_pos_right hd).mpr hc
  linarith

theorem weightsLoop_isSome_iff (xs : List ℚ) (is : List ℕ) :
    (weightsLoop xs is).isSome ↔ ∀ i ∈ is, i < xs.length := by
  induction is with
  | nil => simp [weightsLoop]
  | cons i is ih =>
    simp only [weightsLoop]
    cases h : xs.get? i with
    | none =>
      have hlen : xs.length ≤ i := List.get?_eq_none.mp h
      simp only [Option.isSome_none, Bool.false_eq_true, false_iff]
      intro hall
      exact absurd (hall i (List.mem_cons_self i is)) (by omega)
    | some v =>
      obtain ⟨hlt, -⟩ := List.get?_eq_some.mp h
      simp [Option.isSome_map, ih, hlt]

theorem weightsLoop_inbounds (xs : List ℚ) (is : List ℕ)
    (h : ∀ i ∈ is, i < xs.length) :
    weightsLoop xs is = some (is.map fun i => xs.getD i 0 * xs.getD i 0) := by
  induction is with
  | nil => simp [weightsLoop]
  | cons i is ih =>
    have hi : i < xs.length := h i (List.mem_cons_self i is)
    have hget : xs.get? i = some (xs.getD i 0) := by
      rw [List.get?_eq_get hi, List.getD_eq_get xs 0 hi]
    simp only [weightsLoop, hget]
    rw [ih fun j hj => h j (List.mem_cons_of_mem i hj)]
    rfl

theorem weightsOpt_full (xs : List ℚ) :
    weightsOpt xs xs.length = some (xs.map fun v => v * v) := by
  rw [weightsOpt, weightsLoop_inbounds xs (List.range xs.length)
    (fun i hi => List.mem_range.mp hi)]
  congr 1
  refine List.ext_get (by simp) ?_
  intro n h1 h2
  have hn : n < xs.length := by simpa using h2
  have hr : (List.range xs.length).get ⟨n, by simpa using h1⟩ = n := List.get_range n (by simpa using h1)
  rw [List.get_map, List.get_map]
  simp only [Fin.cast_mk] at hr ⊢
  rw [hr, List.getD_eq_get xs 0 hn]

/-- C10: the weight loop of `curveFitting` reads `sorted_distances[i]` for
every `i < y_values.size()`, so every read is in bounds exactly when
`y_values.size() ≤ sorted_distances.size()`; and for the vectors `fitClasses`
passes (both of length `l + 2` for a class of `l` samples) the precondition
holds, and the loop produces the squares of all the x values. -/
theorem weight_loop_inbounds_precondition :
    (∀ (xs : List ℚ) (n : ℕ), (weightsOpt xs n).isSome ↔ n ≤ xs.length) ∧
    (∀ d : List ℚ, (buildY d.length).length ≤ (buildX d).length ∧
      weightsOpt (buildX d) (buildY d.length).length =
        some ((buildX d).map fun v => v * v)) := by
  constructor
  · intro xs n
    rw [weightsOpt, weightsLoop_isSome_iff]
    constructor
    · intro h
      by_contra hn
      exact absurd (h xs.length (List.mem_range.mpr (by omega))) (by omega)
    · intro h i hi
      have := List.mem_range.mp hi
      omega
  · intro d
    have hx := buildX_length d
    have hy := buildY_length d.length
    constructor
    · omega
    · rw [hy, ← hx, weightsOpt_full]

/-- C4: for every class with `l ≥ 0` sorted non-negative distances, the ECDF
construction produces X, Y, W all of length `l + 2`; X is the original
distances with 0 inserted at the front and 1 appended at the back; `Y[0] = 1`,
`Y[l+1] = 0`, `Y[i] = 1 − i/(l+1)` for the i-th original sample (1-indexed);
Y is monotonically non-increasing; and `W[i] = X[i]²` at every point,
boundary points included. -/
theorem ecdf_construction_correct (d : List ℚ) (hs : List.Sorted (· ≤ ·) d)
    (hnn : ∀ v ∈ d, 0 ≤ v) :
    (buildX d).length = d.length + 2 ∧
    (buildY d.length).length = d.length + 2 ∧
    (buildX d).get? 0 = some 0 ∧
    (buildX d).get? (d.length + 1) = some 1 ∧
    (∀ i, i < d.length → (buildX d).get? (i + 1) = d.get? i) ∧
    (buildY d.length).get? 0 = some 1 ∧
    (buildY d.length).get? (d.length + 1) = some 0 ∧
    (∀ i, 1 ≤ i → i ≤ d.length →
      (buildY d.length).get? i = some (1 - (i : ℚ) / (d.length + 1))) ∧
    List.Chain' (fun a b => b ≤ a) (buildY d.length) ∧
    weightsOpt (buildX d) (buildY d.length).length =
      some ((buildX d).map fun v => v * v) := by
  refine ⟨buildX_length d, buildY_length d.length, rfl, ?_, ?_, ?_, ?_, ?_,
    buildY_antitone d.length, (weight_loop_inbounds_precondition.2 d).2⟩
  · show (d ++ [1]).get? d.length = some (1 : ℚ)
    rw [List.get?_append_right (le_refl d.length)]
    simp
  · intro i hi
    show (d ++ [1]).get? i = d.get? i
    exact List.get?_append hi

  · rw [buildY_get? d.length 0 (by omega)]
    norm_num
  · rw [buildY_get? d.length (d.length + 1) (by omega)]
    have h1 : ((d.length : ℚ) + 1) ≠ 0 := by positivity
    congr 1
    push_cast
    field_simp
  · intro i h1 h2
    exact buildY_get? d.length i (by omega)

/-- C4 witness: the construction at the concrete sorted non-negative class
`[0, 1, 1, 2, 9]`. -/
theorem ecdf_construction_correct_witness :
    List.Sorted (· ≤ ·) [(0 : ℚ), 1, 1, 2, 9] ∧
    (∀ v ∈ [(0 : ℚ), 1, 1, 2, 9], 0 ≤ v) ∧
    ((buildX [(0 : ℚ), 1, 1, 2, 9]).length = 7 ∧
    (buildY 5).length = 7 ∧
    (buildX [(0 : ℚ), 1, 1, 2, 9]).get? 0 = some 0 ∧
    (buildX [(0 : ℚ), 1, 1, 2, 9]).get? 6 = some 1 ∧
    (∀ i, i < 5 → (buildX [(0 : ℚ), 1, 1, 2, 9]).get? (i + 1) =
      [(0 : ℚ), 1, 1, 2, 9].get? i) ∧
    (buildY 5).get? 0 = some 1 ∧
    (buildY 5).get? 6 = some 0 ∧
    (∀ i, 1 ≤ i → i ≤ 5 → (buildY 5).get? i = some (1 - (i : ℚ) / 6)) ∧
    List.Chain' (fun a b => b ≤ a) (buildY 5) ∧
    weightsOpt (buildX [(0 : ℚ), 1, 1, 2, 9]) (buildY 5).length =
      some ((buildX [(0 : ℚ), 1, 1, 2, 9]).map fun v => v * v)) :=
  ⟨by decide, by decide, by
    have h := ecdf_construction_correct [(0 : ℚ), 1, 1, 2, 9] (by decide) (by decide)
    norm_num at h ⊢
    exact h⟩

/-- C9: `fitClasses` mutates the caller's map in place: afterwards the map has
the same class names in the same positions (nothing else is touched), and each
class's vector is its original contents with 0 inserted at the front and 1
appended at the back — in particular the original elements sit contiguously,
unchanged and in order, between the two boundary points. -/
theorem fitClasses_mutates_map_in_place (classes : List (String × List ℚ)) :
    (fitClassesMap classes).map Prod.fst = classes.map Prod.fst ∧
    (fitClassesMap classes).length = classes.length ∧
    ∀ i name d, classes.get? i = some (name, d) →
      ∃ v, (fitClassesMap classes).get? i = some (name, v) ∧
        v = 0 :: d ++ [1] ∧
        v.length = d.length + 2 ∧
        v.get? 0 = some 0 ∧
        v.getLast? = some 1 ∧
        (v.drop 1).dropLast = d := by
  refine ⟨?_, by simp [fitClassesMap], ?_⟩
  · rw [fitClassesMap, List.map_map]
    rfl
  · intro i name d hget
    refine ⟨buildX d, ?_, rfl, buildX_length d, rfl, ?_, ?_⟩
    · rw [fitClassesMap, List.get?_map, hget]
      rfl
    · show ((0 : ℚ) :: (d ++ [1])).getLast? = some 1
      rw [← List.cons_append]
      exact List.getLast?_concat _
    · show (d ++ [1]).dropLast = d
      exact List.dropLast_concat ..

/-! ### Best-fit selection -/

/-- The selection loop picks an element of `r0 :: rs` that is ≤ every element,
and everything strictly before it in the list has strictly larger error, so on
ties the first minimal element wins. -/
theorem selectBestFrom_split (rs : List FitResult) (r0 : FitResult) :
    ∃ pre post, r0 :: rs = pre ++ selectBestFrom rs r0 :: post ∧
      (∀ r ∈ pre, (selectBestFrom rs r0).wrmsError < r.wrmsError) ∧
      (∀ r ∈ r0 :: rs, (selectBestFrom rs r0).wrmsError ≤ r.wrmsError) := by
  induction rs generalizing r0 with
  | nil =>
    refine ⟨[], [], rfl, by simp, ?_⟩
    intro r hr
    rw [List.mem_singleton.mp hr]
    exact le_refl _
  | cons r rest ih =>
    by_cases hlt : r.wrmsError < r0.wrmsError
    · have hbest : selectBestFrom (r :: rest) r0 = selectBestFrom rest r := by
        simp [selectBestFrom, hlt]
      obtain ⟨pre, post, heq, hpre, hle⟩ := ih r
      rw [hbest]
      refine ⟨r0 :: pre, post, ?_, ?_, ?_⟩
      · rw [List.cons_append, ← heq]
      · intro s hs
        rcases List.mem_cons.mp hs with hs | hs
        · rw [hs]
          exact lt_of_le_of_lt (hle r (List.mem_cons_self r rest)) hlt
        · exact hpre s hs
      · intro s hs
        rcases List.mem_cons.mp hs with hs | hs
        · rw [hs]
          exact le_of_lt (lt_of_le_of_lt (hle r (List.mem_cons_self r rest)) hlt)
        · exact hle s hs
    · have hbest : selectBestFrom (r :: rest) r0 = selectBestFrom rest r0 := by
        simp [selectBestFrom, hlt]
      have hr0le : r0.wrmsError ≤ r.wrmsError := le_of_not_lt hlt
      obtain ⟨pre, post, heq, hpre, hle⟩ := ih r0
      rw [hbest]
      cases pre with
      | nil =>
        have h1 : r0 = selectBestFrom rest r0 := by
          simpa using congrArg (fun l => l.head?) heq
        refine ⟨[], r :: rest, by rw [List.nil_append, ← h1], by simp, ?_⟩
        intro s hs
        rcases List.mem_cons.mp hs with hs | hs
        · rw [hs, ← h1]
        · rcases List.mem_cons.mp hs with hs' | hs'
          · rw [hs', ← h1]
            exact hr0le
          · exact hle s (List.mem_cons_of_mem r0 hs')
      | cons p pre' =>
        have h1 : r0 = p := by
          simpa using congrArg (fun l => l.head?) heq
        have h2 : rest = pre' ++ selectBestFrom rest r0 :: post := by
          simpa using congrArg (fun l => l.tail) heq
        have hp : (selectBestFrom rest r0).wrmsError < r0.wrmsError := by
          have hq := hpre p (List.mem_cons_self p pre')
          rwa [← h1] at hq
        refine ⟨r0 :: r :: pre', post, ?_, ?_, ?_⟩
        · rw [List.cons_append, List.cons_append, ← h2]
        · intro s hs
          rcases List.mem_cons.mp hs with hs | hs
          · rw [hs]
            exact hp
          · rcases List.mem_cons.mp hs with hs' | hs'
            · rw [hs']
              exact lt_of_lt_of_le hp hr0le
            · exact hpre s (List.mem_cons_of_mem p hs')
        · intro s hs
          rcases List.mem_cons.mp hs with hs | hs
          · rw [hs]
            exact le_of_lt hp
          · rcases List.mem_cons.mp hs with hs' | hs'
            · rw [hs']
              exact le_of_lt (lt_of_lt_of_le hp hr0le)
            · exact hle s (List.mem_cons_of_mem r0 hs')

/-- Inversion of a successful `curveFitting` pass: the five solver calls it
made, in order, each handing the solver the coefficient vector `c` as the
previous `lsfitresults` left it. -/
theorem curveFittingE_ok_inv (solver : SolverE) (xs ys : List ℚ)
    (b : FitResult) (rs : List FitResult) (tr : List FitCall)
    (h : curveFittingE solver xs ys = Except.ok (b, rs, tr)) :
    ∃ f1 f2 f3 f4 f5 : (ℚ × ℚ) × ℚ,
      solver xs ys ((weightsOpt xs ys.length).getD []) epsx maxits
          ModelId.logisticM initC = Except.ok f1 ∧
      solver xs ys ((weightsOpt xs ys.length).getD []) epsx maxits
          ModelId.hyperbolicM f1.1 = Except.ok f2 ∧
      solver xs ys ((weightsOpt xs ys.length).getD []) epsx maxits
          ModelId.arctanM f2.1 = Except.ok f3 ∧
      solver xs ys ((weightsOpt xs ys.length).getD []) epsx maxits
          ModelId.gudermannianM f3.1 = Except.ok f4 ∧
      solver xs ys ((weightsOpt xs ys.length).getD []) epsx maxits
          ModelId.algebraicM f4.1 = Except.ok f5 ∧
      rs = [⟨f1.1, "Logistic function", f1.2⟩,
            ⟨f2.1, "hyperbolic tangent function", f2.2⟩,
            ⟨f3.1, "arctangent function", f3.2⟩,
            ⟨f4.1, "gudermannian function", f4.2⟩,
            ⟨f5.1, "simple algebraic function", f5.2⟩] ∧
      tr = [⟨initC, epsx, maxits⟩, ⟨f1.1, epsx, maxits⟩, ⟨f2.1, epsx, maxits⟩,
            ⟨f3.1, epsx, maxits⟩, ⟨f4.1, epsx, maxits⟩] ∧
      b = selectBestFrom rs ⟨f1.1, "Logistic function", f1.2⟩ := by
  simp only [curveFittingE] at h
  split at h
  · exact absurd h (by simp)
  rename_i f1 h1
  split at h
  · exact absurd h (by simp)
  rename_i f2 h2
  split at h
  · exact absurd h (by simp)
  rename_i f3 h3
  split at h
  · exact absurd h (by simp)
  rename_i f4 h4
  split at h
  · exact absurd h (by simp)
  rename_i f5 h5
  have h' := Except.ok.inj h
  simp only [Prod.mk.injEq] at h'
  obtain ⟨hb, hrs, htr⟩ := h'
  refine ⟨f1, f2, f3, f4, f5, h1, h2, h3, h4, h5, hrs.symm, htr.symm, ?_⟩
  rw [← hb, ← hrs]

/-- C2 counterexample: a concrete run of the fitter in which all five fits
complete but the five solver calls do not all receive the fixed initial guess
(0.367, 0.45): calls 2-5 receive the previous fit's coefficients (1, 1). -/
theorem same_initial_guess_counterexample :
    curveFittingE constSolver [] [] =
      Except.ok (⟨(1, 1), "Logistic function", 0⟩,
        [⟨(1, 1), "Logistic function", 0⟩, ⟨(1, 1), "hyperbolic tangent function", 0⟩,
         ⟨(1, 1), "arctangent function", 0⟩, ⟨(1, 1), "gudermannian function", 0⟩,
         ⟨(1, 1), "simple algebraic function", 0⟩],
        [⟨initC, epsx, maxits⟩, ⟨(1, 1), epsx, maxits⟩, ⟨(1, 1), epsx, maxits⟩,
         ⟨(1, 1), epsx, maxits⟩, ⟨(1, 1), epsx, maxits⟩]) ∧
    ([⟨initC, epsx, maxits⟩, ⟨(1, 1), epsx, maxits⟩, ⟨(1, 1), epsx, maxits⟩,
      ⟨(1, 1), epsx, maxits⟩, ⟨(1, 1), epsx, maxits⟩] : List FitCall).map FitCall.guess ≠
      List.replicate 5 initC := by
  refine ⟨rfl, ?_⟩
  intro h
  have h1 := congrArg (fun l => l.get? 1) h
  simp only [List.map, List.get?, List.replicate] at h1
  have h2 : ((1 : ℚ), (1 : ℚ)) = initC := by simpa using h1
  rw [Prod.ext_iff] at h2
  have := h2.1
  norm_num [initC] at this

/-- C2 amended: all five fits share the same tolerances (`epsx = 0`,
`maxits = 0`), but only the first fit starts from the fixed initial guess
(0.367, 0.45); each of the remaining four starts from the coefficients the
previous model's `lsfitresults` wrote into `c`. -/
theorem fits_share_tolerances_but_chain_guesses (solver : SolverE) (xs ys : List ℚ)
    (b : FitResult) (rs : List FitResult) (tr : List FitCall)
    (h : curveFittingE solver xs ys = Except.ok (b, rs, tr)) :
    tr.map FitCall.guess = initC :: (rs.take 4).map FitResult.c ∧
    tr.map (fun fc => (fc.eps, fc.maxits)) = List.replicate 5 ((0 : ℚ), (0 : ℤ)) ∧
    rs.length = 5 := by
  obtain ⟨f1, f2, f3, f4, f5, -, -, -, -, -, hrs, htr, -⟩ :=
    curveFittingE_ok_inv solver xs ys b rs tr h
  subst hrs htr
  exact ⟨rfl, rfl, rfl⟩

/-- C2 amended witness: the amended statement at the concrete always-succeeding
solver on empty data. -/
theorem fits_share_tolerances_but_chain_guesses_witness :
    curveFittingE constSolver [] [] =
      Except.ok (⟨(1, 1), "Logistic function", 0⟩,
        [⟨(1, 1), "Logistic function", 0⟩, ⟨(1, 1), "hyperbolic tangent function", 0⟩,
         ⟨(1, 1), "arctangent function", 0⟩, ⟨(1, 1), "gudermannian function", 0⟩,
         ⟨(1, 1), "simple algebraic function", 0⟩],
        [⟨initC, epsx, maxits⟩, ⟨(1, 1), epsx, maxits⟩, ⟨(1, 1), epsx, maxits⟩,
         ⟨(1, 1), epsx, maxits⟩, ⟨(1, 1), epsx, maxits⟩]) ∧
    (([⟨initC, epsx, maxits⟩, ⟨(1, 1), epsx, maxits⟩, ⟨(1, 1), epsx, maxits⟩,
       ⟨(1, 1), epsx, maxits⟩, ⟨(1, 1), epsx, maxits⟩] : List FitCall).map FitCall.guess =
        initC :: (([⟨(1, 1), "Logistic function", 0⟩,
          ⟨(1, 1), "hyperbolic tangent function", 0⟩,
          ⟨(1, 1), "arctangent function", 0⟩, ⟨(1, 1), "gudermannian function", 0⟩,
          ⟨(1, 1), "simple algebraic function", 0⟩] : List FitResult).take 4).map
            FitResult.c ∧
      ([⟨initC, epsx, maxits⟩, ⟨(1, 1), epsx, maxits⟩, ⟨(1, 1), epsx, maxits⟩,
        ⟨(1, 1), epsx, maxits⟩, ⟨(1, 1), epsx, maxits⟩] : List FitCall).map
          (fun fc => (fc.eps, fc.maxits)) = List.replicate 5 ((0 : ℚ), (0 : ℤ)) ∧
      ([⟨(1, 1), "Logistic function", 0⟩, ⟨(1, 1), "hyperbolic tangent function", 0⟩,
        ⟨(1, 1), "arctangent function", 0⟩, ⟨(1, 1), "gudermannian function", 0⟩,
        ⟨(1, 1), "simple algebraic function", 0⟩] : List FitResult).length = 5) :=
  ⟨rfl, fits_share_tolerances_but_chain_guesses constSolver [] [] _ _ _ rfl⟩

/-- C5: whenever the five model fits of a class complete, the results are the
five families in the fixed order logistic, hyperbolic-tangent, arctangent,
Gudermannian, simple-algebraic, and the selected best fit is a result with the
minimum weighted-RMS error among exactly those five, every result placed
before it in that order having strictly larger error (so on ties the first
encountered minimal result wins). -/
theorem best_fit_is_first_minimum (solver : SolverE) (xs ys : List ℚ)
    (b : FitResult) (rs : List FitResult) (tr : List FitCall)
    (h : curveFittingE solver xs ys = Except.ok (b, rs, tr)) :
    rs.map FitResult.functionName =
      ["Logistic function", "hyperbolic tangent function", "arctangent function",
       "gudermannian function", "simple algebraic function"] ∧
    ∃ pre post, rs = pre ++ b :: post ∧
      (∀ r ∈ pre, b.wrmsError < r.wrmsError) ∧
      (∀ r ∈ rs, b.wrmsError ≤ r.wrmsError) := by
  obtain ⟨f1, f2, f3, f4, f5, -, -, -, -, -, hrs, -, hb⟩ :=
    curveFittingE_ok_inv solver xs ys b rs tr h
  subst hrs
  refine ⟨rfl, ?_⟩
  have hred : b = selectBestFrom
      [⟨f2.1, "hyperbolic tangent function", f2.2⟩,
       ⟨f3.1, "arctangent function", f3.2⟩,
       ⟨f4.1, "gudermannian function", f4.2⟩,
       ⟨f5.1, "simple algebraic function", f5.2⟩] ⟨f1.1, "Logistic function", f1.2⟩ := by
    rw [hb]
    simp [selectBestFrom]
  rw [hred]
  exact selectBestFrom_split _ _

/-- C5 witness: the selection property at the concrete always-succeeding
solver on empty data. -/
theorem best_fit_is_first_minimum_witness :
    curveFittingE constSolver [] [] =
      Except.ok (⟨(1, 1), "Logistic function", 0⟩,
        [⟨(1, 1), "Logistic function", 0⟩, ⟨(1, 1), "hyperbolic tangent function", 0⟩,
         ⟨(1, 1), "arctangent function", 0⟩, ⟨(1, 1), "gudermannian function", 0⟩,
         ⟨(1, 1), "simple algebraic function", 0⟩],
        [⟨initC, epsx, maxits⟩, ⟨(1, 1), epsx, maxits⟩, ⟨(1, 1), epsx, maxits⟩,
         ⟨(1, 1), epsx, maxits⟩, ⟨(1, 1), epsx, maxits⟩]) ∧
    (([⟨(1, 1), "Logistic function", 0⟩, ⟨(1, 1), "hyperbolic tangent function", 0⟩,
       ⟨(1, 1), "arctangent function", 0⟩, ⟨(1, 1), "gudermannian function", 0⟩,
       ⟨(1, 1), "simple algebraic function", 0⟩] : List FitResult).map
        FitResult.functionName =
      ["Logistic function", "hyperbolic tangent function", "arctangent function",
       "gudermannian function", "simple algebraic function"] ∧
    ∃ pre post, ([⟨(1, 1), "Logistic function", 0⟩,
        ⟨(1, 1), "hyperbolic tangent function", 0⟩,
        ⟨(1, 1), "arctangent function", 0⟩, ⟨(1, 1), "gudermannian function", 0⟩,
        ⟨(1, 1), "simple algebraic function", 0⟩] : List FitResult) =
          pre ++ (⟨(1, 1), "Logistic function", 0⟩ : FitResult) :: post ∧
      (∀ r ∈ pre, (⟨(1, 1), "Logistic function", 0⟩ : FitResult).wrmsError < r.wrmsError) ∧
      (∀ r ∈ ([⟨(1, 1), "Logistic function", 0⟩,
        ⟨(1, 1), "hyperbolic tangent function", 0⟩,
        ⟨(1, 1), "arctangent function", 0⟩, ⟨(1, 1), "gudermannian function", 0⟩,
        ⟨(1, 1), "simple algebraic function", 0⟩] : List FitResult),
          (⟨(1, 1), "Logistic function", 0⟩ : FitResult).wrmsError ≤ r.wrmsError)) :=
  ⟨rfl, best_fit_is_first_minimum constSolver [] [] _ _ _ rfl⟩

/-! ### Best-Fit Table lemmas -/

theorem writeBest_lookup (t : List (String × FitResult)) (name : String) (r : FitResult)
    (k : String) :
    lookupTable (writeBest t name r) k = if k = name then some r else lookupTable t k := by
  induction t with
  | nil =>
    show (if name = k then some r else none) = if k = name then some r else none
    by_cases h : name = k
    · rw [if_pos h, if_pos h.symm]
    · rw [if_neg h, if_neg fun hh => h hh.symm]
  | cons p t ih =>
    obtain ⟨a, b⟩ := p
    by_cases ha : a = name
    · subst ha
      rw [writeBest, if_pos rfl]
      show (if a = k then some r else lookupTable t k) =
        if k = a then some r else lookupTable ((a, b) :: t) k
      by_cases hk : a = k
      · rw [if_pos hk, if_pos hk.symm]
      · rw [if_neg hk, if_neg fun hh => hk hh.symm]
        show lookupTable t k = if a = k then some b else lookupTable t k
        rw [if_neg hk]
    · rw [writeBest, if_neg ha]
      show (if a = k then some b else lookupTable (writeBest t name r) k) =
        if k = name then some r else lookupTable ((a, b) :: t) k
      by_cases hk : a = k
      · have hkn : k ≠ name := fun hh => ha (hk.trans hh)
        rw [if_pos hk, if_neg hkn]
        show some b = if a = k then some b else lookupTable t k
        rw [if_pos hk]
      · rw [if_neg hk, ih]
        by_cases hkn : k = name
        · rw [if_pos hkn, if_pos hkn]
        · rw [if_neg hkn, if_neg hkn]
          show lookupTable t k = if a = k then some b else lookupTable t k
          rw [if_neg hk]

theorem writeBest_of_not_mem (t : List (String × FitResult)) (name : String) (r : FitResult)
    (h : name ∉ t.map Prod.fst) :
    writeBest t name r = t ++ [(name, r)] := by
  induction t with
  | nil => rfl
  | cons p t ih =>
    obtain ⟨a, b⟩ := p
    rw [List.map_cons, List.mem_cons] at h
    push_neg at h
    rw [writeBest, if_neg (fun hh => h.1 hh.symm), ih h.2, List.cons_append]

theorem lookupTable_some_mem (t : List (String × FitResult)) (k : String) (r : FitResult)
    (h : lookupTable t k = some r) : k ∈ t.map Prod.fst := by
  induction t with
  | nil => exact absurd h (by simp [lookupTable])
  | cons p t ih =>
    obtain ⟨a, b⟩ := p
    by_cases hk : a = k
    · rw [List.map_cons, List.mem_cons]
      exact Or.inl hk.symm
    · rw [lookupTable, if_neg hk] at h
      exact List.mem_cons_of_mem _ (ih h)

theorem foldl_tableStep_lookup_of_not_mem (outs : List (String × Except String FitResult))
    (init : List (String × FitResult)) (name : String)
    (h : name ∉ outs.map Prod.fst) :
    lookupTable (outs.foldl tableStep init) name = lookupTable init name := by
  induction outs generalizing init with
  | nil => rfl
  | cons p rest ih =>
    rw [List.map_cons, List.mem_cons] at h
    push_neg at h
    rw [List.foldl_cons, ih _ h.2]
    obtain ⟨pn, pr⟩ := p
    cases pr with
    | ok r =>
      show lookupTable (writeBest init pn r) name = lookupTable init name
      rw [writeBest_lookup, if_neg h.1]
    | error m => rfl

theorem writeBest_keys_mem (t : List (String × FitResult)) (name : String) (r : FitResult)
    (k : String) (h : k ∈ (writeBest t name r).map Prod.fst) :
    k ∈ t.map Prod.fst ∨ k = name := by
  induction t with
  | nil =>
    right
    simpa [writeBest] using h
  | cons p t ih =>
    obtain ⟨a, b⟩ := p
    by_cases ha : a = name
    · rw [writeBest, if_pos ha, List.map_cons, List.mem_cons] at h
      rcases h with h | h
      · left
        simp [h]
      · left
        exact List.mem_cons_of_mem _ h
    · rw [writeBest, if_neg ha, List.map_cons, List.mem_cons] at h
      rcases h with h | h
      · left
        simp [h]
      · rcases ih h with h' | h'
        · left
          exact List.mem_cons_of_mem _ h'
        · right
          exact h'

theorem foldl_tableStep_keys_subset (outs : List (String × Except String FitResult))
    (init : List (String × FitResult)) (k : String)
    (h : k ∈ (outs.foldl tableStep init).map Prod.fst) :
    k ∈ init.map Prod.fst ∨ k ∈ outs.map Prod.fst := by
  induction outs generalizing init with
  | nil => exact Or.inl h
  | cons p rest ih =>
    rw [List.foldl_cons] at h
    rcases ih (tableStep init p) h with hin | hin
    · obtain ⟨pn, pr⟩ := p
      cases pr with
      | ok r =>
        rcases writeBest_keys_mem init pn r k hin with h' | h'
        · exact Or.inl h'
        · right
          simp [h']
      | error m => exact Or.inl hin
    · right
      exact List.mem_cons_of_mem _ hin

theorem foldl_tableStep_keys_nodup (outs : List (String × Except String FitResult))
    (init : List (String × FitResult)) (hi : (init.map Prod.fst).Nodup)
    (hd : (outs.map Prod.fst).Nodup)
    (hdisj : ∀ k ∈ outs.map Prod.fst, k ∉ init.map Prod.fst) :
    (((outs.foldl tableStep init)).map Prod.fst).Nodup := by
  induction outs generalizing init with
  | nil => exact hi
  | cons p rest ih =>
    rw [List.map_cons, List.nodup_cons] at hd
    have hp1 : p.1 ∉ init.map Prod.fst := hdisj p.1 (by simp)
    have hkeys : (tableStep init p).map Prod.fst = init.map Prod.fst ∨
        (tableStep init p).map Prod.fst = init.map Prod.fst ++ [p.1] := by
      obtain ⟨pn, pr⟩ := p
      cases pr with
      | ok r =>
        right
        show (writeBest init pn r).map Prod.fst = init.map Prod.fst ++ [pn]
        rw [writeBest_of_not_mem init pn r hp1, List.map_append]
        rfl
      | error m => exact Or.inl rfl
    rw [List.foldl_cons]
    refine ih (tableStep init p) ?_ hd.2 ?_
    · rcases hkeys with hk | hk
      · rw [hk]; exact hi
      · rw [hk]
        simp only [List.nodup_append, List.nodup_cons, List.nodup_nil]
        exact ⟨hi, ⟨by simp, trivial⟩, by simpa using hp1⟩
    · intro k hk hkin
      have hkni : k ∉ init.map Prod.fst := hdisj k (List.mem_cons_of_mem _ hk)
      have hknp : k ≠ p.1 := fun he => hd.1 (he ▸ hk)
      rcases hkeys with hkeq | hkeq
      · rw [hkeq] at hkin
        exact hkni hkin
      · rw [hkeq, List.mem_append] at hkin
        rcases hkin with hkin | hkin
        · exact hkni hkin
        · exact hknp (by simpa using hkin)

theorem runAll_keys (solver : SolverE) (classes : List (String × List ℚ)) :
    (runAll solver classes).map Prod.fst = classes.map Prod.fst := by
  rw [runAll, List.map_map]
  rfl

theorem runAll_append (solver : SolverE) (l1 l2 : List (String × List ℚ)) :
    runAll solver (l1 ++ l2) = runAll solver l1 ++ runAll solver l2 := by
  simp [runAll]

/-- The join loop either sees no failure (code 0, nothing reported, every
thread joined) or stops at a failure it found in the outcome list (code 1,
that class and message reported). -/
theorem joinAll_cases (outs : List (String × Except String FitResult)) :
    ((joinAll outs).2.1 = 0 ∧ (joinAll outs).2.2 = none ∧
      (joinAll outs).1 = outs.map Prod.fst) ∨
    (∃ name msg, (name, Except.error msg) ∈ outs ∧ (joinAll outs).2.1 = 1 ∧
      (joinAll outs).2.2 = some (name, msg)) := by
  induction outs with
  | nil => exact Or.inl ⟨rfl, rfl, rfl⟩
  | cons p rest ih =>
    obtain ⟨name, res⟩ := p
    cases res with
    | ok r =>
      rcases ih with ⟨h1, h2, h3⟩ | ⟨n, m, hm, h1, h2⟩
      · exact Or.inl ⟨by simpa [joinAll] using h1, by simpa [joinAll] using h2,
          by simp [joinAll, h3]⟩
      · exact Or.inr ⟨n, m, List.mem_cons_of_mem _ hm, by simpa [joinAll] using h1,
          by simpa [joinAll] using h2⟩
    | error msg =>
      exact Or.inr ⟨name, msg, List.mem_cons_self _ _, rfl, rfl⟩

/-- C8: the Best-Fit Table holds at most one entry per class name after every
write the run performs (equivalently, after every prefix of the job outcomes
has been written), and an entry once present is never removed and never
overwritten: it survives unchanged to the end of the run. -/
theorem best_fit_table_append_only (solver : SolverE) (classes : List (String × List ℚ))
    (h : (classes.map Prod.fst).Nodup) :
    ∀ pre suf, classes = pre ++ suf →
      ((finalTable (runAll solver pre)).map Prod.fst).Nodup ∧
      ∀ name r, lookupTable (finalTable (runAll solver pre)) name = some r →
        lookupTable (finalTable (runAll solver classes)) name = some r := by
  intro pre suf hsplit
  subst hsplit
  have hmap : ((pre ++ suf).map Prod.fst) = pre.map Prod.fst ++ suf.map Prod.fst :=
    List.map_append _ _ _
  rw [hmap] at h
  have hpre : (pre.map Prod.fst).Nodup := h.of_append_left
  have hdisj : ∀ k ∈ pre.map Prod.fst, k ∉ suf.map Prod.fst := by
    intro k hk
    exact (List.disjoint_of_nodup_append h) hk
  constructor
  · refine foldl_tableStep_keys_nodup (runAll solver pre) [] (by simp) ?_ (by simp)
    rw [runAll_keys]
    exact hpre
  · intro name r hlook
    have hname_mem : name ∈ pre.map Prod.fst := by
      have hmem := lookupTable_some_mem _ _ _ hlook
      rcases foldl_tableStep_keys_subset (runAll solver pre) [] name hmem with hin | hin
      · exact absurd hin (by simp)
      · rw [runAll_keys] at hin
        exact hin
    have hnot : name ∉ (runAll solver suf).map Prod.fst := by
      rw [runAll_keys]
      exact hdisj name hname_mem
    rw [finalTable, runAll_append, List.foldl_append]
    rw [foldl_tableStep_lookup_of_not_mem _ _ _ hnot]
    exact hlook

/-- C8 witness: the invariant at a concrete two-class run. -/
theorem best_fit_table_append_only_witness :
    ((([("A", [2]), ("B", [3])] : List (String × List ℚ)).map Prod.fst).Nodup) ∧
    (∀ pre suf, ([("A", [2]), ("B", [3])] : List (String × List ℚ)) = pre ++ suf →
      ((finalTable (runAll failSolverA pre)).map Prod.fst).Nodup ∧
      ∀ name r, lookupTable (finalTable (runAll failSolverA pre)) name = some r →
        lookupTable (finalTable (runAll failSolverA [("A", [2]), ("B", [3])])) name =
          some r) :=
  ⟨by decide, best_fit_table_append_only failSolverA [("A", [2]), ("B", [3])] (by decide)⟩

/-- C6: a solver exception while fitting any model aborts the whole class —
the class's already-computed per-model results are discarded and no Best-Fit
Table entry is written for it — while classes whose five fits completed keep
their table entry even when the overall call reports failure, and the failure
reported to the caller carries the failing class's name together with the
solver's message. -/
theorem solver_exception_isolated_per_class (solver : SolverE)
    (classes : List (String × List ℚ)) (h : (classes.map Prod.fst).Nodup) :
    (∀ name d, (name, d) ∈ classes →
      (∀ msg, curveFittingE solver (buildX d) (buildY d.length) = Except.error msg →
        lookupTable (fitClassesRun solver classes).table name = none) ∧
      (∀ b rs tr, curveFittingE solver (buildX d) (buildY d.length) =
          Except.ok (b, rs, tr) →
        lookupTable (fitClassesRun solver classes).table name = some b)) ∧
    ((fitClassesRun solver classes).code = 1 →
      ∃ name msg, (fitClassesRun solver classes).report = some (name, msg) ∧
        ∃ d, (name, d) ∈ classes ∧
          curveFittingE solver (buildX d) (buildY d.length) = Except.error msg) := by
  constructor
  · intro name d hmem
    obtain ⟨pre, suf, hsplit⟩ := List.append_of_mem hmem
    subst hsplit
    have hnames : name ∉ pre.map Prod.fst ∧ name ∉ suf.map Prod.fst := by
      rw [List.map_append, List.map_cons] at h
      have h' := List.nodup_middle.mp h
      rw [List.nodup_cons, List.mem_append] at h'
      push_neg at h'
      exact h'.1
    have htab : (fitClassesRun solver (pre ++ (name, d) :: suf)).table =
        (runAll solver suf).foldl tableStep
          (tableStep ((runAll solver pre).foldl tableStep [])
            (name, (runJob solver d).map fun t => t.1)) := by
      show finalTable (runAll solver (pre ++ (name, d) :: suf)) = _
      rw [finalTable, runAll, List.map_append, List.map_cons, List.foldl_append,
        List.foldl_cons]
      rfl
    have hnotsuf : name ∉ (runAll solver suf).map Prod.fst := by
      rw [runAll_keys]
      exact hnames.2
    have hnotpre : name ∉ (runAll solver pre).map Prod.fst := by
      rw [runAll_keys]
      exact hnames.1
    constructor
    · intro msg hfail
      have hjob : (runJob solver d).map (fun t => t.1) = Except.error msg := by
        rw [runJob, hfail]
        rfl
      rw [htab, hjob, foldl_tableStep_lookup_of_not_mem _ _ _ hnotsuf]
      show lookupTable ((runAll solver pre).foldl tableStep []) name = none
      rw [foldl_tableStep_lookup_of_not_mem _ _ _ hnotpre]
      rfl
    · intro b rs tr hok
      have hjob : (runJob solver d).map (fun t => t.1) = Except.ok b := by
        rw [runJob, hok]
        rfl
      rw [htab, hjob, foldl_tableStep_lookup_of_not_mem _ _ _ hnotsuf]
      show lookupTable (writeBest ((runAll solver pre).foldl tableStep []) name b)
        name = some b
      rw [writeBest_lookup, if_pos rfl]
  · intro hcode
    rcases joinAll_cases (runAll solver classes) with ⟨h1, -, -⟩ | ⟨n, m, hm, -, h2⟩
    · have h0 : (fitClassesRun solver classes).code = 0 := h1
      rw [hcode] at h0
      exact absurd h0 one_ne_zero
    · refine ⟨n, m, h2, ?_⟩
      obtain ⟨⟨pn, pd⟩, hp, heq⟩ := List.mem_map.mp hm
      rw [Prod.mk.injEq] at heq
      obtain ⟨hn, hjob⟩ := heq
      refine ⟨pd, hn ▸ hp, ?_⟩
      rw [runJob] at hjob
      cases hcf : curveFittingE solver (buildX pd) (buildY pd.length) with
      | ok v => rw [hcf] at hjob; exact absurd hjob (by simp [Except.map])
      | error m' =>
        rw [hcf] at hjob
        have hmm : m' = m := by simpa [Except.map] using hjob
        rw [hmm]

/-- C6 witness: the per-class isolation property at the concrete two-class run
in which class "A" raises a solver exception and class "B" succeeds. -/
theorem solver_exception_isolated_per_class_witness :
    ((([("A", [2]), ("B", [3])] : List (String × List ℚ)).map Prod.fst).Nodup) ∧
    ((∀ name d, (name, d) ∈ ([("A", [2]), ("B", [3])] : List (String × List ℚ)) →
      (∀ msg, curveFittingE failSolverA (buildX d) (buildY d.length) = Except.error msg →
        lookupTable (fitClassesRun failSolverA [("A", [2]), ("B", [3])]).table name =
          none) ∧
      (∀ b rs tr, curveFittingE failSolverA (buildX d) (buildY d.length) =
          Except.ok (b, rs, tr) →
        lookupTable (fitClassesRun failSolverA [("A", [2]), ("B", [3])]).table name =
          some b)) ∧
    ((fitClassesRun failSolverA [("A", [2]), ("B", [3])]).code = 1 →
      ∃ name msg,
        (fitClassesRun failSolverA [("A", [2]), ("B", [3])]).report = some (name, msg) ∧
        ∃ d, (name, d) ∈ ([("A", [2]), ("B", [3])] : List (String × List ℚ)) ∧
          curveFittingE failSolverA (buildX d) (buildY d.length) = Except.error msg)) :=
  ⟨by decide,
    solver_exception_isolated_per_class failSolverA [("A", [2]), ("B", [3])] (by decide)⟩

/-- C3: the join loop does NOT join every launched job before returning: in a
run where class "A"'s job fails and class "B"'s job was also launched, the
loop returns failure after joining only "A", so "B" is never joined (its
`std::thread` is destroyed joinable).  The concrete run evaluates to the full
observable outcome, whose joined list is only `["A"]`. -/
theorem join_loop_abandons_threads_on_failure :
    fitClassesRun failSolverA [("A", [2]), ("B", [3])] =
      ⟨[("B", ⟨(1, 1), "Logistic function", 0⟩)], ["A"], 1,
        some ("A", "ALGLIB: singular matrix")⟩ ∧
    (fitClassesRun failSolverA [("A", [2]), ("B", [3])]).joined ≠
      ([("A", [2]), ("B", [3])] : List (String × List ℚ)).map Prod.fst := by
  constructor
  · rfl
  · intro h
    have h' : (["A"] : List String) = ["A", "B"] := h
    exact absurd h' (by decide)

/-- C9 witness: the in-place mutation at a concrete one-class map. -/
theorem fitClasses_mutates_map_in_place_witness :
    ((fitClassesMap [("A", [2, 3])]).map Prod.fst =
      ([("A", [2, 3])] : List (String × List ℚ)).map Prod.fst) ∧
    ((fitClassesMap [("A", [2, 3])]).length =
      ([("A", [2, 3])] : List (String × List ℚ)).length) ∧
    ∀ i name d, ([("A", [2, 3])] : List (String × List ℚ)).get? i = some (name, d) →
      ∃ v, (fitClassesMap [("A", [2, 3])]).get? i = some (name, v) ∧
        v = 0 :: d ++ [1] ∧
        v.length = d.length + 2 ∧
        v.get? 0 = some 0 ∧
        v.getLast? = some 1 ∧
        (v.drop 1).dropLast = d :=
  fitClasses_mutates_map_in_place [("A", [2, 3])]

end Pidentify
